import Mathlib

/-!
Verification of the spaced-repetition scheduler.

Shallow embedding of the Anki-style SRS scheduler found in
`backend/app/routes/flashcards.py`, together with proofs of the claims
about it.

Modelling conventions
* The card-state string column becomes the inductive type `CardState`;
  well-formed cards (the only ones the spec talks about) carry one of the
  four states.
* Python floats (`ease_factor`) are modelled as exact rationals `ℚ`;
  every arithmetic operation the scheduler performs on them
  (`+ 0.15`, `- 0.2`, `max`, `*`) is exact here.
* Python `int(x)` (truncation toward zero) is `pyInt`.
* Millisecond timestamps are `ℕ`, day intervals are `ℤ` (Python ints),
  calendar dates are modelled as integer day numbers, so
  `date.today() + timedelta(days = k)` becomes `today + k`.
* Python list indexing `xs[i]` raises `IndexError` out of range, so the
  state machine and the preview function are embedded as `Option`-valued
  functions in which every indexing step is `List.get?`; `none` models
  the error path.
* Wall-clock reads (`time.time()`, `date.today()`) are passed in as the
  parameters `now_ms` and `today`.
-/

/-- The four values of the `card_state` column. -/
inductive CardState : Type
  | new
  | learning
  | review
  | relearning
deriving DecidableEq, Repr

/-- The four user ratings accepted by the review endpoint. -/
inductive Rating : Type
  | again
  | hard
  | good
  | easy
deriving DecidableEq, Repr

/-- The scheduling fields of one flashcard row that the scheduler reads
(the `or`-defaults of `process_review` are assumed already applied, which
is what the data model's well-formedness amounts to). -/
structure Card : Type where
  card_state : CardState
  learning_step : ℕ
  ease_factor : ℚ
  interval_days : ℤ
  repetitions : ℕ
  due_timestamp : Option ℕ
  next_review_date : Option ℤ
  created_at : ℕ
deriving DecidableEq, Repr

/-- The dict of updated fields returned by `process_review`. -/
structure CardUpdate : Type where
  card_state : CardState
  learning_step : ℕ
  due_timestamp : Option ℕ
  ease_factor : ℚ
  interval_days : ℤ
  repetitions : ℕ
  next_review_date : Option ℤ
  last_reviewed_at : ℕ
deriving DecidableEq, Repr

-- ============ Anki-Style SRS Constants ============

/-- Learning steps in seconds (1 min, 10 min). -/
def LEARNING_STEPS : List ℕ := [60, 600]

/-- Relearning steps in seconds (10 min). -/
def RELEARNING_STEPS : List ℕ := [600]

/-- Hard interval = current step times this. -/
def HARD_MULTIPLIER : ℚ := 2.0

/-- Graduating interval (days) when graduating from learning with Good. -/
def GRADUATING_INTERVAL_GOOD : ℤ := 1

/-- Graduating interval (days) when graduating with Easy. -/
def GRADUATING_INTERVAL_EASY : ℤ := 4

/-- Multiply old interval by this on lapse. -/
def LAPSE_NEW_INTERVAL_PERCENT : ℚ := 0.7

/-- Minimum interval after lapse (days). -/
def LAPSE_MINIMUM_INTERVAL : ℤ := 1

/-- SM-2 minimum ease factor. -/
def MINIMUM_EASE_FACTOR : ℚ := 1.3

/-- SM-2 starting ease factor. -/
def STARTING_EASE_FACTOR : ℚ := 2.5

/-- Multiply interval by this for an Easy answer. -/
def EASY_BONUS : ℚ := 1.3

/-- Python `int(q)`: truncation toward zero (floor for nonnegative
arguments, ceiling for negative ones). -/
def pyInt (q : ℚ) : ℤ := if 0 ≤ q then ⌊q⌋ else ⌈q⌉

/-- `get_next_review_date`: `date.today() + timedelta(days=interval)`,
with dates as integer day numbers. -/
def get_next_review_date (today : ℤ) (interval_days : ℤ) : ℤ :=
  today + interval_days

/-- `calculate_sm2_interval`: the SM-2 step for REVIEW cards; returns
`(new_interval_days, new_ease_factor, new_repetitions)`. -/
def calculate_sm2_interval (quality : ℕ) (repetitions : ℕ) (ease_factor : ℚ)
    (interval : ℤ) : ℤ × ℚ × ℕ :=
  if quality = 1 then
    (max LAPSE_MINIMUM_INTERVAL (pyInt ((interval : ℚ) * LAPSE_NEW_INTERVAL_PERCENT)),
     max MINIMUM_EASE_FACTOR (ease_factor - 0.2),
     0)
  else if quality = 2 then
    (max 1 (pyInt ((interval : ℚ) * 1.2)),
     max MINIMUM_EASE_FACTOR (ease_factor - 0.15),
     repetitions + 1)
  else if quality = 3 then
    (if repetitions = 0 then 1
     else if repetitions = 1 then 6
     else pyInt ((interval : ℚ) * ease_factor),
     ease_factor,
     repetitions + 1)
  else
    (if repetitions = 0 then GRADUATING_INTERVAL_EASY
     else if repetitions = 1 then 6
     else pyInt ((interval : ℚ) * ease_factor * EASY_BONUS),
     ease_factor + 0.15,
     repetitions + 1)

/-- `process_review(card, rating)`: the Anki-style state machine.
`now_ms` and `today` stand for the wall-clock reads.  Every Python list
indexing is modelled by `List.get?`, so `none` is the `IndexError`
path. -/
def process_review (card : Card) (rating : Rating) (now_ms : ℕ) (today : ℤ) :
    Option CardUpdate :=
  let learning_step := card.learning_step
  let ease_factor := card.ease_factor
  let interval_days := card.interval_days
  let repetitions := card.repetitions
  match card.card_state with
  | .new =>
    match rating with
    | .again => do
        let s0 ← LEARNING_STEPS.get? 0
        pure { card_state := .learning, learning_step := 0,
               due_timestamp := some (now_ms + s0 * 1000),
               ease_factor := ease_factor, interval_days := 0,
               repetitions := 0, next_review_date := none,
               last_reviewed_at := now_ms }
    | .hard => do
        let s0 ← LEARNING_STEPS.get? 0
        let hard_interval := (pyInt ((s0 : ℚ) * HARD_MULTIPLIER)).toNat
        pure { card_state := .learning, learning_step := 0,
               due_timestamp := some (now_ms + hard_interval * 1000),
               ease_factor := ease_factor, interval_days := 0,
               repetitions := 0, next_review_date := none,
               last_reviewed_at := now_ms }
    | .good => do
        let s0 ← LEARNING_STEPS.get? 0
        pure { card_state := .learning, learning_step := 0,
               due_timestamp := some (now_ms + s0 * 1000),
               ease_factor := ease_factor, interval_days := 0,
               repetitions := 0, next_review_date := none,
               last_reviewed_at := now_ms }
    | .easy =>
        some { card_state := .review, learning_step := 0,
               due_timestamp := none,
               ease_factor := ease_factor + 0.15,
               interval_days := GRADUATING_INTERVAL_EASY, repetitions := 1,
               next_review_date :=
                 some (get_next_review_date today GRADUATING_INTERVAL_EASY),
               last_reviewed_at := now_ms }
  | .learning =>
    match rating with
    | .again => do
        let s0 ← LEARNING_STEPS.get? 0
        pure { card_state := .learning, learning_step := 0,
               due_timestamp := some (now_ms + s0 * 1000),
               ease_factor := max MINIMUM_EASE_FACTOR (ease_factor - 0.2),
               interval_days := 0, repetitions := 0,
               next_review_date := none, last_reviewed_at := now_ms }
    | .hard => do
        let current_step := min learning_step (LEARNING_STEPS.length - 1)
        let s ← LEARNING_STEPS.get? current_step
        let hard_interval := (pyInt ((s : ℚ) * HARD_MULTIPLIER)).toNat
        pure { card_state := .learning, learning_step := current_step,
               due_timestamp := some (now_ms + hard_interval * 1000),
               ease_factor := max MINIMUM_EASE_FACTOR (ease_factor - 0.15),
               interval_days := 0, repetitions := repetitions,
               next_review_date := none, last_reviewed_at := now_ms }
    | .good =>
        let next_step := learning_step + 1
        if next_step ≥ LEARNING_STEPS.length then
          some { card_state := .review, learning_step := 0,
                 due_timestamp := none, ease_factor := ease_factor,
                 interval_days := GRADUATING_INTERVAL_GOOD, repetitions := 1,
                 next_review_date :=
                   some (get_next_review_date today GRADUATING_INTERVAL_GOOD),
                 last_reviewed_at := now_ms }
        else do
          let s ← LEARNING_STEPS.get? next_step
          pure { card_state := .learning, learning_step := next_step,
                 due_timestamp := some (now_ms + s * 1000),
                 ease_factor := ease_factor, interval_days := 0,
                 repetitions := repetitions, next_review_date := none,
                 last_reviewed_at := now_ms }
    | .easy =>
        some { card_state := .review, learning_step := 0,
               due_timestamp := none,
               ease_factor := ease_factor + 0.15,
               interval_days := GRADUATING_INTERVAL_EASY, repetitions := 1,
               next_review_date :=
                 some (get_next_review_date today GRADUATING_INTERVAL_EASY),
               last_reviewed_at := now_ms }
  | .review =>
    match rating with
    | .again => do
        let s0 ← RELEARNING_STEPS.get? 0
        let new_interval :=
          max LAPSE_MINIMUM_INTERVAL
            (pyInt ((interval_days : ℚ) * LAPSE_NEW_INTERVAL_PERCENT))
        pure { card_state := .relearning, learning_step := 0,
               due_timestamp := some (now_ms + s0 * 1000),
               ease_factor := max MINIMUM_EASE_FACTOR (ease_factor - 0.2),
               interval_days := new_interval, repetitions := 0,
               next_review_date := none, last_reviewed_at := now_ms }
    | _ =>
        let quality : ℕ :=
          match rating with
          | .again => 1
          | .hard => 2
          | .good => 3
          | .easy => 4
        let res := calculate_sm2_interval quality repetitions ease_factor
          interval_days
        some { card_state := .review, learning_step := 0,
               due_timestamp := none, ease_factor := res.2.1,
               interval_days := res.1, repetitions := res.2.2,
               next_review_date := some (get_next_review_date today res.1),
               last_reviewed_at := now_ms }
  | .relearning =>
    match rating with
    | .again => do
        let s0 ← RELEARNING_STEPS.get? 0
        pure { card_state := .relearning, learning_step := 0,
               due_timestamp := some (now_ms + s0 * 1000),
               ease_factor := max MINIMUM_EASE_FACTOR (ease_factor - 0.2),
               interval_days := interval_days, repetitions := 0,
               next_review_date := none, last_reviewed_at := now_ms }
    | .hard => do
        let current_step := min learning_step (RELEARNING_STEPS.length - 1)
        let s ← RELEARNING_STEPS.get? current_step
        let hard_interval := (pyInt ((s : ℚ) * HARD_MULTIPLIER)).toNat
        pure { card_state := .relearning, learning_step := current_step,
               due_timestamp := some (now_ms + hard_interval * 1000),
               ease_factor := max MINIMUM_EASE_FACTOR (ease_factor - 0.15),
               interval_days := interval_days, repetitions := repetitions,
               next_review_date := none, last_reviewed_at := now_ms }
    | .good =>
        let next_step := learning_step + 1
        if next_step ≥ RELEARNING_STEPS.length then
          some { card_state := .review, learning_step := 0,
                 due_timestamp := none, ease_factor := ease_factor,
                 interval_days := interval_days, repetitions := 1,
                 next_review_date :=
                   some (get_next_review_date today interval_days),
                 last_reviewed_at := now_ms }
        else do
          let s ← RELEARNING_STEPS.get? next_step
          pure { card_state := .relearning, learning_step := next_step,
                 due_timestamp := some (now_ms + s * 1000),
                 ease_factor := ease_factor, interval_days := interval_days,
                 repetitions := repetitions, next_review_date := none,
                 last_reviewed_at := now_ms }
    | .easy =>
        let bonus_interval := max interval_days GRADUATING_INTERVAL_EASY
        some { card_state := .review, learning_step := 0,
               due_timestamp := none,
               ease_factor := ease_factor + 0.15,
               interval_days := bonus_interval, repetitions := 1,
               next_review_date :=
                 some (get_next_review_date today bonus_interval),
               last_reviewed_at := now_ms }

/-- `submit_review` writes the returned fields back onto the card row
(`UPDATE ... SET card_state, learning_step, due_timestamp, ease_factor,
interval_days, repetitions, next_review_date, last_reviewed_at`). -/
def applyUpdate (c : Card) (u : CardUpdate) : Card :=
  { card_state := u.card_state, learning_step := u.learning_step,
    ease_factor := u.ease_factor, interval_days := u.interval_days,
    repetitions := u.repetitions, due_timestamp := u.due_timestamp,
    next_review_date := u.next_review_date, created_at := c.created_at }

/-- Run a finite sequence of reviews, each with its own wall-clock
instant, one at a time through `process_review`. -/
def runReviews (c : Card) : List (Rating × ℕ × ℤ) → Option Card
  | [] => some c
  | (r, n, t) :: rest =>
    match process_review c r n t with
    | none => none
    | some u => runReviews (applyUpdate c u) rest

/-- One entry of the preview dict: either a sub-day delay in seconds
(learning/relearning outcomes) or a delay in days (review outcomes). -/
inductive PreviewEntry : Type
  | secs (n : ℕ)
  | days (n : ℤ)
deriving DecidableEq, Repr

/-- The preview dict with its four rating keys. -/
structure PreviewIntervals : Type where
  again : PreviewEntry
  hard : PreviewEntry
  good : PreviewEntry
  easy : PreviewEntry
deriving DecidableEq, Repr

/-- Look a rating up in the preview dict. -/
def PreviewIntervals.forRating (p : PreviewIntervals) : Rating → PreviewEntry
  | .again => p.again
  | .hard => p.hard
  | .good => p.good
  | .easy => p.easy

/-- `get_preview_intervals(card)`: the per-rating timing hints shown on
the rating buttons.  Indexing is again `List.get?`. -/
def get_preview_intervals (card : Card) : Option PreviewIntervals :=
  let learning_step := card.learning_step
  let ease_factor := card.ease_factor
  let interval_days := card.interval_days
  let repetitions := card.repetitions
  match card.card_state with
  | .new => do
      let s0 ← LEARNING_STEPS.get? 0
      let hard_interval := (pyInt ((s0 : ℚ) * HARD_MULTIPLIER)).toNat
      pure { again := .secs s0, hard := .secs hard_interval,
             good := .secs s0, easy := .days GRADUATING_INTERVAL_EASY }
  | .learning => do
      let current_step := min learning_step (LEARNING_STEPS.length - 1)
      let next_step := learning_step + 1
      let sc ← LEARNING_STEPS.get? current_step
      let hard_interval := (pyInt ((sc : ℚ) * HARD_MULTIPLIER)).toNat
      let s0 ← LEARNING_STEPS.get? 0
      let good_entry ←
        if next_step ≥ LEARNING_STEPS.length then
          pure (PreviewEntry.days GRADUATING_INTERVAL_GOOD)
        else do
          let sn ← LEARNING_STEPS.get? next_step
          pure (PreviewEntry.secs sn)
      pure { again := .secs s0, hard := .secs hard_interval,
             good := good_entry, easy := .days GRADUATING_INTERVAL_EASY }
  | .review => do
      let r0 ← RELEARNING_STEPS.get? 0
      let hard_interval := max 1 (pyInt ((interval_days : ℚ) * 1.2))
      let good_interval : ℤ :=
        if repetitions = 0 then 1
        else if repetitions = 1 then 6
        else pyInt ((interval_days : ℚ) * ease_factor)
      let easy_interval : ℤ :=
        if repetitions = 0 then GRADUATING_INTERVAL_EASY
        else if repetitions = 1 then 6
        else pyInt ((interval_days : ℚ) * ease_factor * EASY_BONUS)
      pure { again := .secs r0, hard := .days hard_interval,
             good := .days good_interval, easy := .days easy_interval }
  | .relearning => do
      let current_step := min learning_step (RELEARNING_STEPS.length - 1)
      let next_step := learning_step + 1
      let sc ← RELEARNING_STEPS.get? current_step
      let hard_interval := (pyInt ((sc : ℚ) * HARD_MULTIPLIER)).toNat
      let r0 ← RELEARNING_STEPS.get? 0
      let good_entry ←
        if next_step ≥ RELEARNING_STEPS.length then
          pure (PreviewEntry.days interval_days)
        else do
          let sn ← RELEARNING_STEPS.get? next_step
          pure (PreviewEntry.secs sn)
      let bonus_interval := max interval_days GRADUATING_INTERVAL_EASY
      pure { again := .secs r0, hard := .secs hard_interval,
             good := good_entry, easy := .days bonus_interval }

-- ============ Due Queue Assembler ============

/-- The `sort` query parameter of the due-cards endpoint. -/
inductive SortOrder : Type
  | due_first
  | random
  | newest
  | oldest
deriving DecidableEq, Repr

/-- `card_state IN ('learning', 'relearning')`. -/
def isLearnOrRelearn (c : Card) : Bool :=
  c.card_state == .learning || c.card_state == .relearning

/-- `due_timestamp IS NOT NULL AND due_timestamp <= now`. -/
def dueAtMost (c : Card) (now_ms : ℕ) : Bool :=
  match c.due_timestamp with
  | some t => decide (t ≤ now_ms)
  | none => false

/-- `card_state = 'review' AND next_review_date IS NOT NULL AND
next_review_date <= today`. -/
def reviewDue (c : Card) (today : ℤ) : Bool :=
  c.card_state == .review &&
    (match c.next_review_date with
     | some d => decide (d ≤ today)
     | none => false)

/-- `ORDER BY due_timestamp ASC` (all selected rows have a non-null
`due_timestamp`, so the default only pads the type). -/
def byDue (a b : Card) : Prop :=
  a.due_timestamp.getD 0 ≤ b.due_timestamp.getD 0

/-- `ORDER BY next_review_date ASC`. -/
def byNext (a b : Card) : Prop :=
  a.next_review_date.getD 0 ≤ b.next_review_date.getD 0

/-- `ORDER BY created_at ASC`, also the `sort=oldest` comparison. -/
def byCreated (a b : Card) : Prop := a.created_at ≤ b.created_at

/-- The `sort=newest` comparison (`created_at` descending). -/
def byCreatedDesc (a b : Card) : Prop := b.created_at ≤ a.created_at

instance : DecidableRel byDue :=
  fun _ _ => inferInstanceAs (Decidable (_ ≤ _))

instance : DecidableRel byNext :=
  fun _ _ => inferInstanceAs (Decidable (_ ≤ _))

instance : DecidableRel byCreated :=
  fun _ _ => inferInstanceAs (Decidable (_ ≤ _))

instance : DecidableRel byCreatedDesc :=
  fun _ _ => inferInstanceAs (Decidable (_ ≤ _))

instance : IsTotal Card byDue := ⟨fun _ _ => Nat.le_total _ _⟩

instance : IsTrans Card byDue := ⟨fun _ _ _ => Nat.le_trans⟩

instance : IsTotal Card byNext := ⟨fun _ _ => Int.le_total _ _⟩

instance : IsTrans Card byNext := ⟨fun _ _ _ => Int.le_trans⟩

instance : IsTotal Card byCreated := ⟨fun _ _ => Nat.le_total _ _⟩

instance : IsTrans Card byCreated := ⟨fun _ _ _ => Nat.le_trans⟩

instance : IsTotal Card byCreatedDesc := ⟨fun _ _ => Nat.le_total _ _⟩

instance : IsTrans Card byCreatedDesc :=
  ⟨fun _ _ _ h h' => Nat.le_trans h' h⟩

/-- The `LIMIT` clause on the new-cards query.  Python's
`if new_limit` treats both an absent and a zero `new_limit` as "no
LIMIT clause"; SQLite treats a negative `LIMIT` as unlimited. -/
def applyNewLimit (new_limit : Option ℤ) (l : List Card) : List Card :=
  match new_limit with
  | none => l
  | some n =>
    if n = 0 then l
    else if 0 ≤ n then l.take n.toNat
    else l

/-- `get_due_cards`: assemble the due queue.  The three SQL queries
become filters over the in-memory snapshot followed by a sort on the
query's `ORDER BY` key (SQL leaves the order of key-ties unspecified;
this model fixes the stable insertion-sort order).  `shuffle` stands in
for `random.shuffle`. -/
def get_due_cards (cards : List Card) (include_new include_pending : Bool)
    (sort_order : SortOrder) (new_limit : Option ℤ)
    (shuffle : List Card → List Card) (now_ms : ℕ) (today : ℤ) :
    List Card :=
  let learning_cards :=
    if include_pending then
      List.insertionSort byDue
        (cards.filter fun c => isLearnOrRelearn c && c.due_timestamp.isSome)
    else
      List.insertionSort byDue
        (cards.filter fun c => isLearnOrRelearn c && dueAtMost c now_ms)
  let review_cards :=
    List.insertionSort byNext (cards.filter fun c => reviewDue c today)
  let base := learning_cards ++ review_cards
  let all_cards :=
    if include_new then
      base ++
        applyNewLimit new_limit
          (List.insertionSort byCreated
            (cards.filter fun c => c.card_state == .new))
    else base
  match sort_order with
  | .random => shuffle all_cards
  | .newest => List.insertionSort byCreatedDesc all_cards
  | .oldest => List.insertionSort byCreated all_cards
  | .due_first => all_cards

-- ============ Forecast ============

/-- One element of the forecast array. -/
structure DayForecast : Type where
  fdate : ℤ
  dayOffset : ℕ
  dueCount : ℕ
  newCount : ℕ
  reviewCount : ℕ
deriving DecidableEq, Repr

/-- `COUNT(*) WHERE card_state = 'review' AND next_review_date = d`. -/
def reviewCountOn (cards : List Card) (d : ℤ) : ℕ :=
  cards.countP fun c =>
    c.card_state == .review && c.next_review_date == some d

/-- `COUNT(*) WHERE card_state = 'new'`. -/
def newCardCount (cards : List Card) : ℕ :=
  cards.countP fun c => c.card_state == .new

/-- `get_forecast`: daily due counts for `min(days, 365)` days plus the
running total; returns `(forecast, totalDue, daysAhead)`. -/
def get_forecast (cards : List Card) (days : ℤ) (today : ℤ) :
    List DayForecast × ℕ × ℤ :=
  let days_ahead := min days 365
  let forecastList := (List.range days_ahead.toNat).map fun (i : ℕ) =>
    let rc := reviewCountOn cards (today + (i : ℤ))
    let nc := if i = 0 then newCardCount cards else 0
    { fdate := today + (i : ℤ), dayOffset := i, dueCount := rc + nc,
      newCount := nc, reviewCount := rc }
  (forecastList, (forecastList.map (·.dueCount)).sum, days_ahead)

-- ============ Study Statistics (streak) ============

/-- One row of the `review_log` table (only the fields the streak
computation reads). -/
structure LogEntry : Type where
  module : String
  reviewed_at : ℤ
deriving DecidableEq, Repr

/-- `COUNT(*) FROM review_log WHERE module = m AND reviewed_at >= d AND
reviewed_at < d + 86400000`. -/
def dayCount (log : List LogEntry) (m : String) (d : ℤ) : ℕ :=
  log.countP fun e =>
    e.module == m && decide (d ≤ e.reviewed_at) &&
      decide (e.reviewed_at < d + 86400000)

/-- The streak `while` loop of `get_study_stats`.  The loop body either
breaks on an empty day, or increments the streak and breaks once the
streak exceeds 365; `fuel` only bounds the recursion and is chosen large
enough (367) that it never runs out before one of the loop's own exits
(at most 366 increments can happen). -/
def streakGo (log : List LogEntry) (m : String) :
    ℤ → ℕ → ℕ → ℕ
  | _, streak, 0 => streak
  | check_date, streak, fuel + 1 =>
    if 0 < dayCount log m check_date then
      if 365 < streak + 1 then streak + 1
      else streakGo log m (check_date - 86400000) (streak + 1) fuel
    else streak

/-- The study-streak value returned by `get_study_stats`:
`today_start = (now_ms // 86400000) * 86400000`, then the backward
walk. -/
def study_streak (log : List LogEntry) (m : String) (now_ms : ℕ) : ℕ :=
  let today_start : ℤ := ((now_ms : ℤ) / 86400000) * 86400000
  streakGo log m today_start 0 367

-- ============ Derived notions used by the statements ============

/-- The tier of a card in the DueFirst priority (0 = learning/relearning,
1 = review, 2 = new). -/
def tierRank (c : Card) : ℕ :=
  match c.card_state with
  | .learning | .relearning => 0
  | .review => 1
  | .new => 2

/-- The documented within-tier ordering key of a card. -/
def tierKey (c : Card) : ℤ :=
  match c.card_state with
  | .learning | .relearning => (c.due_timestamp.getD 0 : ℤ)
  | .review => c.next_review_date.getD 0
  | .new => (c.created_at : ℤ)

/-- DueFirst queue ordering: strictly earlier tier, or same tier in
ascending key order. -/
def queueLe (a b : Card) : Prop :=
  tierRank a < tierRank b ∨ (tierRank a = tierRank b ∧ tierKey a ≤ tierKey b)

/-- Review-state cards whose `next_review_date` falls in the window
`[today, today + n)`. -/
def windowCount (cards : List Card) (today : ℤ) (n : ℕ) : ℕ :=
  cards.countP fun c =>
    c.card_state == .review &&
      (match c.next_review_date with
       | some d => decide (today ≤ d) && decide (d < today + (n : ℤ))
       | none => false)

/-- The learning/relearning tier of the queue (first SQL query). -/
def learningPart (cards : List Card) (include_pending : Bool) (now_ms : ℕ) :
    List Card :=
  if include_pending then
    List.insertionSort byDue
      (cards.filter fun c => isLearnOrRelearn c && c.due_timestamp.isSome)
  else
    List.insertionSort byDue
      (cards.filter fun c => isLearnOrRelearn c && dueAtMost c now_ms)

/-- The due-review tier of the queue (second SQL query). -/
def reviewPart (cards : List Card) (today : ℤ) : List Card :=
  List.insertionSort byNext (cards.filter fun c => reviewDue c today)

/-- The new-card tier of the queue (third SQL query, with its LIMIT). -/
def newPart (cards : List Card) (include_new : Bool)
    (new_limit : Option ℤ) : List Card :=
  if include_new then
    applyNewLimit new_limit
      (List.insertionSort byCreated
        (cards.filter fun c => c.card_state == .new))
  else []

/-- Agreement of one preview entry with the outcome the state machine
committed: sub-day outcomes must agree on the seconds until
`due_timestamp`, review outcomes on the day interval. -/
def agreesWith (now_ms : ℕ) (e : PreviewEntry) (u : CardUpdate) : Prop :=
  match u.card_state with
  | .learning | .relearning =>
      ∃ s, e = .secs s ∧ u.due_timestamp = some (now_ms + s * 1000)
  | .review => e = .days u.interval_days
  | .new => False

-- ============ Branch equations of the state machine ============

lemma pr_new_again (ls : ℕ) (ef : ℚ) (iv : ℤ) (reps : ℕ) (due : Option ℕ)
    (next : Option ℤ) (cr : ℕ) (n : ℕ) (t : ℤ) :
    process_review ⟨.new, ls, ef, iv, reps, due, next, cr⟩ .again n t =
      some { card_state := .learning, learning_step := 0,
             due_timestamp := some (n + 60 * 1000), ease_factor := ef,
             interval_days := 0, repetitions := 0, next_review_date := none,
             last_reviewed_at := n } := rfl

lemma pr_new_hard (ls : ℕ) (ef : ℚ) (iv : ℤ) (reps : ℕ) (due : Option ℕ)
    (next : Option ℤ) (cr : ℕ) (n : ℕ) (t : ℤ) :
    process_review ⟨.new, ls, ef, iv, reps, due, next, cr⟩ .hard n t =
      some { card_state := .learning, learning_step := 0,
             due_timestamp :=
               some (n + (pyInt ((60 : ℚ) * HARD_MULTIPLIER)).toNat * 1000),
             ease_factor := ef, interval_days := 0, repetitions := 0,
             next_review_date := none, last_reviewed_at := n } := rfl

lemma pr_new_good (ls : ℕ) (ef : ℚ) (iv : ℤ) (reps : ℕ) (due : Option ℕ)
    (next : Option ℤ) (cr : ℕ) (n : ℕ) (t : ℤ) :
    process_review ⟨.new, ls, ef, iv, reps, due, next, cr⟩ .good n t =
      some { card_state := .learning, learning_step := 0,
             due_timestamp := some (n + 60 * 1000), ease_factor := ef,
             interval_days := 0, repetitions := 0, next_review_date := none,
             last_reviewed_at := n } := rfl

lemma pr_new_easy (ls : ℕ) (ef : ℚ) (iv : ℤ) (reps : ℕ) (due : Option ℕ)
    (next : Option ℤ) (cr : ℕ) (n : ℕ) (t : ℤ) :
    process_review ⟨.new, ls, ef, iv, reps, due, next, cr⟩ .easy n t =
      some { card_state := .review, learning_step := 0,
             due_timestamp := none, ease_factor := ef + 0.15,
             interval_days := GRADUATING_INTERVAL_EASY, repetitions := 1,
             next_review_date := some (t + GRADUATING_INTERVAL_EASY),
             last_reviewed_at := n } := rfl

lemma pr_learning_again (ls : ℕ) (ef : ℚ) (iv : ℤ) (reps : ℕ)
    (due : Option ℕ) (next : Option ℤ) (cr : ℕ) (n : ℕ) (t : ℤ) :
    process_review ⟨.learning, ls, ef, iv, reps, due, next, cr⟩ .again n t =
      some { card_state := .learning, learning_step := 0,
             due_timestamp := some (n + 60 * 1000),
             ease_factor := max MINIMUM_EASE_FACTOR (ef - 0.2),
             interval_days := 0, repetitions := 0, next_review_date := none,
             last_reviewed_at := n } := rfl

lemma pr_learning_hard_zero (ef : ℚ) (iv : ℤ) (reps : ℕ) (due : Option ℕ)
    (next : Option ℤ) (cr : ℕ) (n : ℕ) (t : ℤ) :
    process_review ⟨.learning, 0, ef, iv, reps, due, next, cr⟩ .hard n t =
      some { card_state := .learning, learning_step := 0,
             due_timestamp :=
               some (n + (pyInt ((60 : ℚ) * HARD_MULTIPLIER)).toNat * 1000),
             ease_factor := max MINIMUM_EASE_FACTOR (ef - 0.15),
             interval_days := 0, repetitions := reps,
             next_review_date := none, last_reviewed_at := n } := rfl

lemma pr_learning_hard_pos (ls : ℕ) (h : 1 ≤ ls) (ef : ℚ) (iv : ℤ)
    (reps : ℕ) (due : Option ℕ) (next : Option ℤ) (cr : ℕ) (n : ℕ) (t : ℤ) :
    process_review ⟨.learning, ls, ef, iv, reps, due, next, cr⟩ .hard n t =
      some { card_state := .learning, learning_step := 1,
             due_timestamp :=
               some (n + (pyInt ((600 : ℚ) * HARD_MULTIPLIER)).toNat * 1000),
             ease_factor := max MINIMUM_EASE_FACTOR (ef - 0.15),
             interval_days := 0, repetitions := reps,
             next_review_date := none, last_reviewed_at := n } := by
  have hmin : min ls (LEARNING_STEPS.length - 1) = 1 := by
    simp [LEARNING_STEPS]
    omega
  simp only [process_review, hmin]
  rfl

lemma pr_learning_good_zero (ef : ℚ) (iv : ℤ) (reps : ℕ) (due : Option ℕ)
    (next : Option ℤ) (cr : ℕ) (n : ℕ) (t : ℤ) :
    process_review ⟨.learning, 0, ef, iv, reps, due, next, cr⟩ .good n t =
      some { card_state := .learning, learning_step := 1,
             due_timestamp := some (n + 600 * 1000), ease_factor := ef,
             interval_days := 0, repetitions := reps,
             next_review_date := none, last_reviewed_at := n } := rfl

lemma pr_learning_good_pos (ls : ℕ) (h : 1 ≤ ls) (ef : ℚ) (iv : ℤ)
    (reps : ℕ) (due : Option ℕ) (next : Option ℤ) (cr : ℕ) (n : ℕ) (t : ℤ) :
    process_review ⟨.learning, ls, ef, iv, reps, due, next, cr⟩ .good n t =
      some { card_state := .review, learning_step := 0,
             due_timestamp := none, ease_factor := ef,
             interval_days := GRADUATING_INTERVAL_GOOD, repetitions := 1,
             next_review_date := some (t + GRADUATING_INTERVAL_GOOD),
             last_reviewed_at := n } := by
  have hlen : ls + 1 ≥ LEARNING_STEPS.length := by
    simp [LEARNING_STEPS]
    omega
  simp only [process_review, if_pos hlen]
  rfl

lemma pr_learning_easy (ls : ℕ) (ef : ℚ) (iv : ℤ) (reps : ℕ)
    (due : Option ℕ) (next : Option ℤ) (cr : ℕ) (n : ℕ) (t : ℤ) :
    process_review ⟨.learning, ls, ef, iv, reps, due, next, cr⟩ .easy n t =
      some { card_state := .review, learning_step := 0,
             due_timestamp := none, ease_factor := ef + 0.15,
             interval_days := GRADUATING_INTERVAL_EASY, repetitions := 1,
             next_review_date := some (t + GRADUATING_INTERVAL_EASY),
             last_reviewed_at := n } := rfl

lemma pr_review_again (ls : ℕ) (ef : ℚ) (iv : ℤ) (reps : ℕ)
    (due : Option ℕ) (next : Option ℤ) (cr : ℕ) (n : ℕ) (t : ℤ) :
    process_review ⟨.review, ls, ef, iv, reps, due, next, cr⟩ .again n t =
      some { card_state := .relearning, learning_step := 0,
             due_timestamp := some (n + 600 * 1000),
             ease_factor := max MINIMUM_EASE_FACTOR (ef - 0.2),
             interval_days :=
               max LAPSE_MINIMUM_INTERVAL
                 (pyInt ((iv : ℚ) * LAPSE_NEW_INTERVAL_PERCENT)),
             repetitions := 0, next_review_date := none,
             last_reviewed_at := n } := rfl

lemma pr_review_hard (ls : ℕ) (ef : ℚ) (iv : ℤ) (reps : ℕ)
    (due : Option ℕ) (next : Option ℤ) (cr : ℕ) (n : ℕ) (t : ℤ) :
    process_review ⟨.review, ls, ef, iv, reps, due, next, cr⟩ .hard n t =
      some { card_state := .review, learning_step := 0,
             due_timestamp := none,
             ease_factor := max MINIMUM_EASE_FACTOR (ef - 0.15),
             interval_days := max 1 (pyInt ((iv : ℚ) * 1.2)),
             repetitions := reps + 1,
             next_review_date := some (t + max 1 (pyInt ((iv : ℚ) * 1.2))),
             last_reviewed_at := n } := rfl

lemma pr_review_good (ls : ℕ) (ef : ℚ) (iv : ℤ) (reps : ℕ)
    (due : Option ℕ) (next : Option ℤ) (cr : ℕ) (n : ℕ) (t : ℤ) :
    process_review ⟨.review, ls, ef, iv, reps, due, next, cr⟩ .good n t =
      some { card_state := .review, learning_step := 0,
             due_timestamp := none, ease_factor := ef,
             interval_days :=
               (if reps = 0 then 1 else if reps = 1 then 6
                else pyInt ((iv : ℚ) * ef)),
             repetitions := reps + 1,
             next_review_date :=
               some (t + (if reps = 0 then 1 else if reps = 1 then 6
                          else pyInt ((iv : ℚ) * ef))),
             last_reviewed_at := n } := rfl

lemma pr_review_easy (ls : ℕ) (ef : ℚ) (iv : ℤ) (reps : ℕ)
    (due : Option ℕ) (next : Option ℤ) (cr : ℕ) (n : ℕ) (t : ℤ) :
    process_review ⟨.review, ls, ef, iv, reps, due, next, cr⟩ .easy n t =
      some { card_state := .review, learning_step := 0,
             due_timestamp := none, ease_factor := ef + 0.15,
             interval_days :=
               (if reps = 0 then GRADUATING_INTERVAL_EASY
                else if reps = 1 then 6
                else pyInt ((iv : ℚ) * ef * EASY_BONUS)),
             repetitions := reps + 1,
             next_review_date :=
               some (t + (if reps = 0 then GRADUATING_INTERVAL_EASY
                          else if reps = 1 then 6
                          else pyInt ((iv : ℚ) * ef * EASY_BONUS))),
             last_reviewed_at := n } := rfl

lemma pr_relearning_again (ls : ℕ) (ef : ℚ) (iv : ℤ) (reps : ℕ)
    (due : Option ℕ) (next : Option ℤ) (cr : ℕ) (n : ℕ) (t : ℤ) :
    process_review ⟨.relearning, ls, ef, iv, reps, due, next, cr⟩ .again n t =
      some { card_state := .relearning, learning_step := 0,
             due_timestamp := some (n + 600 * 1000),
             ease_factor := max MINIMUM_EASE_FACTOR (ef - 0.2),
             interval_days := iv, repetitions := 0,
             next_review_date := none, last_reviewed_at := n } := rfl

lemma pr_relearning_hard (ls : ℕ) (ef : ℚ) (iv : ℤ) (reps : ℕ)
    (due : Option ℕ) (next : Option ℤ) (cr : ℕ) (n : ℕ) (t : ℤ) :
    process_review ⟨.relearning, ls, ef, iv, reps, due, next, cr⟩ .hard n t =
      some { card_state := .relearning, learning_step := 0,
             due_timestamp :=
               some (n + (pyInt ((600 : ℚ) * HARD_MULTIPLIER)).toNat * 1000),
             ease_factor := max MINIMUM_EASE_FACTOR (ef - 0.15),
             interval_days := iv, repetitions := reps,
             next_review_date := none, last_reviewed_at := n } := by
  have hmin : min ls (RELEARNING_STEPS.length - 1) = 0 := by
    simp [RELEARNING_STEPS]
  simp only [process_review, hmin]
  rfl

lemma pr_relearning_good (ls : ℕ) (ef : ℚ) (iv : ℤ) (reps : ℕ)
    (due : Option ℕ) (next : Option ℤ) (cr : ℕ) (n : ℕ) (t : ℤ) :
    process_review ⟨.relearning, ls, ef, iv, reps, due, next, cr⟩ .good n t =
      some { card_state := .review, learning_step := 0,
             due_timestamp := none, ease_factor := ef,
             interval_days := iv, repetitions := 1,
             next_review_date := some (t + iv),
             last_reviewed_at := n } := by
  have hlen : ls + 1 ≥ RELEARNING_STEPS.length := by
    simp [RELEARNING_STEPS]
  simp only [process_review, if_pos hlen]
  rfl

lemma pr_relearning_easy (ls : ℕ) (ef : ℚ) (iv : ℤ) (reps : ℕ)
    (due : Option ℕ) (next : Option ℤ) (cr : ℕ) (n : ℕ) (t : ℤ) :
    process_review ⟨.relearning, ls, ef, iv, reps, due, next, cr⟩ .easy n t =
      some { card_state := .review, learning_step := 0,
             due_timestamp := none, ease_factor := ef + 0.15,
             interval_days := max iv GRADUATING_INTERVAL_EASY,
             repetitions := 1,
             next_review_date := some (t + max iv GRADUATING_INTERVAL_EASY),
             last_reviewed_at := n } := rfl

-- ============ Branch equations of the preview function ============

lemma pv_new (ls : ℕ) (ef : ℚ) (iv : ℤ) (reps : ℕ) (due : Option ℕ)
    (next : Option ℤ) (cr : ℕ) :
    get_preview_intervals ⟨.new, ls, ef, iv, reps, due, next, cr⟩ =
      some { again := .secs 60,
             hard := .secs ((pyInt ((60 : ℚ) * HARD_MULTIPLIER)).toNat),
             good := .secs 60,
             easy := .days GRADUATING_INTERVAL_EASY } := rfl

lemma pv_learning_zero (ef : ℚ) (iv : ℤ) (reps : ℕ) (due : Option ℕ)
    (next : Option ℤ) (cr : ℕ) :
    get_preview_intervals ⟨.learning, 0, ef, iv, reps, due, next, cr⟩ =
      some { again := .secs 60,
             hard := .secs ((pyInt ((60 : ℚ) * HARD_MULTIPLIER)).toNat),
             good := .secs 600,
             easy := .days GRADUATING_INTERVAL_EASY } := rfl

lemma pv_learning_pos (ls : ℕ) (h : 1 ≤ ls) (ef : ℚ) (iv : ℤ) (reps : ℕ)
    (due : Option ℕ) (next : Option ℤ) (cr : ℕ) :
    get_preview_intervals ⟨.learning, ls, ef, iv, reps, due, next, cr⟩ =
      some { again := .secs 60,
             hard := .secs ((pyInt ((600 : ℚ) * HARD_MULTIPLIER)).toNat),
             good := .days GRADUATING_INTERVAL_GOOD,
             easy := .days GRADUATING_INTERVAL_EASY } := by
  have hmin : min ls (LEARNING_STEPS.length - 1) = 1 := by
    simp [LEARNING_STEPS]
    omega
  have hlen : ls + 1 ≥ LEARNING_STEPS.length := by
    simp [LEARNING_STEPS]
    omega
  simp only [get_preview_intervals, hmin, if_pos hlen]
  rfl

lemma pv_review (ls : ℕ) (ef : ℚ) (iv : ℤ) (reps : ℕ) (due : Option ℕ)
    (next : Option ℤ) (cr : ℕ) :
    get_preview_intervals ⟨.review, ls, ef, iv, reps, due, next, cr⟩ =
      some { again := .secs 600,
             hard := .days (max 1 (pyInt ((iv : ℚ) * 1.2))),
             good := .days (if reps = 0 then 1 else if reps = 1 then 6
                            else pyInt ((iv : ℚ) * ef)),
             easy := .days (if reps = 0 then GRADUATING_INTERVAL_EASY
                            else if reps = 1 then 6
                            else pyInt ((iv : ℚ) * ef * EASY_BONUS)) } := rfl

lemma pv_relearning (ls : ℕ) (ef : ℚ) (iv : ℤ) (reps : ℕ) (due : Option ℕ)
    (next : Option ℤ) (cr : ℕ) :
    get_preview_intervals ⟨.relearning, ls, ef, iv, reps, due, next, cr⟩ =
      some { again := .secs 600,
             hard := .secs ((pyInt ((600 : ℚ) * HARD_MULTIPLIER)).toNat),
             good := .days iv,
             easy := .days (max iv GRADUATING_INTERVAL_EASY) } := by
  have hmin : min ls (RELEARNING_STEPS.length - 1) = 0 := by
    simp [RELEARNING_STEPS]
  have hlen : ls + 1 ≥ RELEARNING_STEPS.length := by
    simp [RELEARNING_STEPS]
  simp only [get_preview_intervals, hmin, if_pos hlen]
  rfl

-- ============ Claims about the state machine ============

/-- C1: for every well-formed card (any of the four `card_state`s) and
every rating, `process_review` returns a defined result (never the
`IndexError` path) whose state is learning, review or relearning;
`due_timestamp` is set and `next_review_date` is null exactly when the
new state is learning or relearning, and `next_review_date` is set and
`due_timestamp` is null exactly when the new state is review. -/
theorem claim_c1_state_totality (c : Card) (r : Rating) (now_ms : ℕ)
    (today : ℤ) :
    ∃ u, process_review c r now_ms today = some u ∧
      (u.card_state = .learning ∨ u.card_state = .review ∨
        u.card_state = .relearning) ∧
      ((u.due_timestamp.isSome ∧ u.next_review_date = none) ↔
        (u.card_state = .learning ∨ u.card_state = .relearning)) ∧
      ((u.next_review_date.isSome ∧ u.due_timestamp = none) ↔
        u.card_state = .review) := by
  rcases c with ⟨cs, ls, ef, iv, reps, due, next, cr⟩
  cases cs <;> cases r
  · rw [pr_new_again]; exact ⟨_, rfl, by simp⟩
  · rw [pr_new_hard]; exact ⟨_, rfl, by simp⟩
  · rw [pr_new_good]; exact ⟨_, rfl, by simp⟩
  · rw [pr_new_easy]; exact ⟨_, rfl, by simp⟩
  · rw [pr_learning_again]; exact ⟨_, rfl, by simp⟩
  · rcases Nat.eq_zero_or_pos ls with rfl | h
    · rw [pr_learning_hard_zero]; exact ⟨_, rfl, by simp⟩
    · rw [pr_learning_hard_pos ls h]; exact ⟨_, rfl, by simp⟩
  · rcases Nat.eq_zero_or_pos ls with rfl | h
    · rw [pr_learning_good_zero]; exact ⟨_, rfl, by simp⟩
    · rw [pr_learning_good_pos ls h]; exact ⟨_, rfl, by simp⟩
  · rw [pr_learning_easy]; exact ⟨_, rfl, by simp⟩
  · rw [pr_review_again]; exact ⟨_, rfl, by simp⟩
  · rw [pr_review_hard]; exact ⟨_, rfl, by simp⟩
  · rw [pr_review_good]; exact ⟨_, rfl, by simp⟩
  · rw [pr_review_easy]; exact ⟨_, rfl, by simp⟩
  · rw [pr_relearning_again]; exact ⟨_, rfl, by simp⟩
  · rw [pr_relearning_hard]; exact ⟨_, rfl, by simp⟩
  · rw [pr_relearning_good]; exact ⟨_, rfl, by simp⟩
  · rw [pr_relearning_easy]; exact ⟨_, rfl, by simp⟩

/-- C10: for every card, whatever its `learning_step`, neither
`process_review` nor `get_preview_intervals` ever indexes outside
`LEARNING_STEPS`/`RELEARNING_STEPS`: the `Option`-modelled indexing
never reaches the error path. -/
theorem claim_c10_no_index_error (c : Card) (r : Rating) (now_ms : ℕ)
    (today : ℤ) :
    (process_review c r now_ms today).isSome ∧
      (get_preview_intervals c).isSome := by
  rcases c with ⟨cs, ls, ef, iv, reps, due, next, cr⟩
  constructor
  · cases cs <;> cases r
    · rw [pr_new_again]; rfl
    · rw [pr_new_hard]; rfl
    · rw [pr_new_good]; rfl
    · rw [pr_new_easy]; rfl
    · rw [pr_learning_again]; rfl
    · rcases Nat.eq_zero_or_pos ls with rfl | h
      · rw [pr_learning_hard_zero]; rfl
      · rw [pr_learning_hard_pos ls h]; rfl
    · rcases Nat.eq_zero_or_pos ls with rfl | h
      · rw [pr_learning_good_zero]; rfl
      · rw [pr_learning_good_pos ls h]; rfl
    · rw [pr_learning_easy]; rfl
    · rw [pr_review_again]; rfl
    · rw [pr_review_hard]; rfl
    · rw [pr_review_good]; rfl
    · rw [pr_review_easy]; rfl
    · rw [pr_relearning_again]; rfl
    · rw [pr_relearning_hard]; rfl
    · rw [pr_relearning_good]; rfl
    · rw [pr_relearning_easy]; rfl
  · cases cs
    · rw [pv_new]; rfl
    · rcases Nat.eq_zero_or_pos ls with rfl | h
      · rw [pv_learning_zero]; rfl
      · rw [pv_learning_pos ls h]; rfl
    · rw [pv_review]; rfl
    · rw [pv_relearning]; rfl

/-- C9: on a Review-state card a Good rating leaves the ease factor
exactly unchanged while the card stays in Review (the interval and the
repetition counter are what move). -/
theorem claim_c9_good_keeps_ease (c : Card) (now_ms : ℕ) (today : ℤ)
    (h : c.card_state = .review) :
    ∃ u, process_review c .good now_ms today = some u ∧
      u.ease_factor = c.ease_factor ∧ u.card_state = .review ∧
      u.repetitions = c.repetitions + 1 := by
  rcases c with ⟨cs, ls, ef, iv, reps, due, next, cr⟩
  cases h
  rw [pr_review_good]
  exact ⟨_, rfl, rfl, rfl, rfl⟩

/-- Witness for C9 at a concrete Review card. -/
theorem claim_c9_good_keeps_ease_witness :
    (⟨.review, 0, 2, 5, 2, none, some 0, 0⟩ : Card).card_state =
        CardState.review ∧
      ∃ u, process_review ⟨.review, 0, 2, 5, 2, none, some 0, 0⟩ .good 0 0 =
          some u ∧
        u.ease_factor = (⟨.review, 0, 2, 5, 2, none, some 0, 0⟩ : Card).ease_factor ∧
        u.card_state = .review ∧
        u.repetitions = (⟨.review, 0, 2, 5, 2, none, some 0, 0⟩ : Card).repetitions + 1 :=
  ⟨rfl, claim_c9_good_keeps_ease ⟨.review, 0, 2, 5, 2, none, some 0, 0⟩ 0 0 rfl⟩

/-- Every branch of the state machine changes the ease factor in one of
four ways: unchanged, plus 0.15, or clamped max with the floor after
subtracting 0.2 or 0.15. -/
lemma ease_branch_shape (c : Card) (r : Rating) (n : ℕ) (t : ℤ)
    (u : CardUpdate) (h : process_review c r n t = some u) :
    u.ease_factor = c.ease_factor ∨
      u.ease_factor = c.ease_factor + 0.15 ∨
      u.ease_factor = max MINIMUM_EASE_FACTOR (c.ease_factor - 0.2) ∨
      u.ease_factor = max MINIMUM_EASE_FACTOR (c.ease_factor - 0.15) := by
  rcases c with ⟨cs, ls, ef, iv, reps, due, next, cr⟩
  cases cs <;> cases r
  · rw [pr_new_again] at h; cases Option.some.inj h; left; rfl
  · rw [pr_new_hard] at h; cases Option.some.inj h; left; rfl
  · rw [pr_new_good] at h; cases Option.some.inj h; left; rfl
  · rw [pr_new_easy] at h; cases Option.some.inj h; right; left; rfl
  · rw [pr_learning_again] at h; cases Option.some.inj h
    right; right; left; rfl
  · rcases Nat.eq_zero_or_pos ls with rfl | hls
    · rw [pr_learning_hard_zero] at h; cases Option.some.inj h
      right; right; right; rfl
    · rw [pr_learning_hard_pos ls hls] at h; cases Option.some.inj h
      right; right; right; rfl
  · rcases Nat.eq_zero_or_pos ls with rfl | hls
    · rw [pr_learning_good_zero] at h; cases Option.some.inj h; left; rfl
    · rw [pr_learning_good_pos ls hls] at h; cases Option.some.inj h
      left; rfl
  · rw [pr_learning_easy] at h; cases Option.some.inj h; right; left; rfl
  · rw [pr_review_again] at h; cases Option.some.inj h
    right; right; left; rfl
  · rw [pr_review_hard] at h; cases Option.some.inj h
    right; right; right; rfl
  · rw [pr_review_good] at h; cases Option.some.inj h; left; rfl
  · rw [pr_review_easy] at h; cases Option.some.inj h; right; left; rfl
  · rw [pr_relearning_again] at h; cases Option.some.inj h
    right; right; left; rfl
  · rw [pr_relearning_hard] at h; cases Option.some.inj h
    right; right; right; rfl
  · rw [pr_relearning_good] at h; cases Option.some.inj h; left; rfl
  · rw [pr_relearning_easy] at h; cases Option.some.inj h; right; left; rfl

/-- One review step preserves the 1.3 ease floor. -/
lemma ease_floor_step (c : Card) (r : Rating) (n : ℕ) (t : ℤ)
    (u : CardUpdate) (h : process_review c r n t = some u)
    (hef : MINIMUM_EASE_FACTOR ≤ c.ease_factor) :
    MINIMUM_EASE_FACTOR ≤ u.ease_factor := by
  rcases ease_branch_shape c r n t u h with h1 | h1 | h1 | h1 <;> rw [h1]
  · exact hef
  · calc MINIMUM_EASE_FACTOR ≤ c.ease_factor := hef
      _ ≤ c.ease_factor + 0.15 := by
        have : (0 : ℚ) ≤ 0.15 := by norm_num
        linarith
  · exact le_max_left _ _
  · exact le_max_left _ _

/-- The 1.3 ease floor is preserved along any finite review sequence. -/
lemma runReviews_ease_floor (steps : List (Rating × ℕ × ℤ)) :
    ∀ c c' : Card, MINIMUM_EASE_FACTOR ≤ c.ease_factor →
      runReviews c steps = some c' →
      MINIMUM_EASE_FACTOR ≤ c'.ease_factor := by
  induction steps with
  | nil =>
    intro c c' hef hrun
    cases Option.some.inj hrun
    exact hef
  | cons step rest ih =>
    intro c c' hef hrun
    obtain ⟨r, n, t⟩ := step
    rw [runReviews] at hrun
    cases hp : process_review c r n t with
    | none => rw [hp] at hrun; cases hrun
    | some u =>
      rw [hp] at hrun
      exact ih (applyUpdate c u) c' (ease_floor_step c r n t u hp hef) hrun

/-- C2: starting from any card with ease factor at least 1.3, any finite
sequence of ratings applied one at a time through `process_review` keeps
the ease factor at least 1.3; moreover every single branch either leaves
the ease unchanged, raises it by 0.15, or lowers it clamped at the 1.3
floor. -/
theorem claim_c2_ease_floor (c : Card) (steps : List (Rating × ℕ × ℤ))
    (c' : Card) (h0 : MINIMUM_EASE_FACTOR ≤ c.ease_factor)
    (hrun : runReviews c steps = some c') :
    MINIMUM_EASE_FACTOR ≤ c'.ease_factor ∧
      ∀ (d : Card) (r : Rating) (n : ℕ) (t : ℤ) (u : CardUpdate),
        process_review d r n t = some u →
        u.ease_factor = d.ease_factor ∨
          u.ease_factor = d.ease_factor + 0.15 ∨
          u.ease_factor = max MINIMUM_EASE_FACTOR (d.ease_factor - 0.2) ∨
          u.ease_factor = max MINIMUM_EASE_FACTOR (d.ease_factor - 0.15) :=
  ⟨runReviews_ease_floor steps c c' h0 hrun,
   fun d r n t u h => ease_branch_shape d r n t u h⟩

/-- Witness for C2: one Good review of a fresh card whose ease factor
sits exactly at the floor. -/
theorem claim_c2_ease_floor_witness :
    MINIMUM_EASE_FACTOR ≤
        (⟨.new, 0, MINIMUM_EASE_FACTOR, 0, 0, none, none, 0⟩ : Card).ease_factor ∧
      (MINIMUM_EASE_FACTOR ≤
          (⟨.learning, 0, MINIMUM_EASE_FACTOR, 0, 0, some 60000, none, 0⟩ : Card).ease_factor ∧
        ∀ (d : Card) (r : Rating) (n : ℕ) (t : ℤ) (u : CardUpdate),
          process_review d r n t = some u →
          u.ease_factor = d.ease_factor ∨
            u.ease_factor = d.ease_factor + 0.15 ∨
            u.ease_factor = max MINIMUM_EASE_FACTOR (d.ease_factor - 0.2) ∨
            u.ease_factor = max MINIMUM_EASE_FACTOR (d.ease_factor - 0.15)) :=
  ⟨le_refl _,
   claim_c2_ease_floor ⟨.new, 0, MINIMUM_EASE_FACTOR, 0, 0, none, none, 0⟩
     [(.good, 0, 0)]
     ⟨.learning, 0, MINIMUM_EASE_FACTOR, 0, 0, some 60000, none, 0⟩
     (le_refl _) rfl⟩

/-- C3: for every card and rating, previewing and committing take the
same branch: the preview entry for the rating agrees with the scheduled
outcome — equal seconds until `due_timestamp` when the result lands in
Learning/Relearning, and exactly the new `interval_days` when it lands
in Review. -/
theorem claim_c3_preview_commit_consistency (c : Card) (r : Rating)
    (now_ms : ℕ) (today : ℤ) :
    ∃ p u, get_preview_intervals c = some p ∧
      process_review c r now_ms today = some u ∧
      agreesWith now_ms (p.forRating r) u := by
  rcases c with ⟨cs, ls, ef, iv, reps, due, next, cr⟩
  cases cs
  · rw [pv_new]
    cases r
    · rw [pr_new_again]; exact ⟨_, _, rfl, rfl, ⟨60, rfl, rfl⟩⟩
    · rw [pr_new_hard]; exact ⟨_, _, rfl, rfl, ⟨_, rfl, rfl⟩⟩
    · rw [pr_new_good]; exact ⟨_, _, rfl, rfl, ⟨60, rfl, rfl⟩⟩
    · rw [pr_new_easy]; exact ⟨_, _, rfl, rfl, rfl⟩
  · rcases Nat.eq_zero_or_pos ls with rfl | hls
    · rw [pv_learning_zero]
      cases r
      · rw [pr_learning_again]; exact ⟨_, _, rfl, rfl, ⟨60, rfl, rfl⟩⟩
      · rw [pr_learning_hard_zero]; exact ⟨_, _, rfl, rfl, ⟨_, rfl, rfl⟩⟩
      · rw [pr_learning_good_zero]; exact ⟨_, _, rfl, rfl, ⟨600, rfl, rfl⟩⟩
      · rw [pr_learning_easy]; exact ⟨_, _, rfl, rfl, rfl⟩
    · rw [pv_learning_pos ls hls]
      cases r
      · rw [pr_learning_again]; exact ⟨_, _, rfl, rfl, ⟨60, rfl, rfl⟩⟩
      · rw [pr_learning_hard_pos ls hls]
        exact ⟨_, _, rfl, rfl, ⟨_, rfl, rfl⟩⟩
      · rw [pr_learning_good_pos ls hls]; exact ⟨_, _, rfl, rfl, rfl⟩
      · rw [pr_learning_easy]; exact ⟨_, _, rfl, rfl, rfl⟩
  · rw [pv_review]
    cases r
    · rw [pr_review_again]; exact ⟨_, _, rfl, rfl, ⟨600, rfl, rfl⟩⟩
    · rw [pr_review_hard]; exact ⟨_, _, rfl, rfl, rfl⟩
    · rw [pr_review_good]; exact ⟨_, _, rfl, rfl, rfl⟩
    · rw [pr_review_easy]; exact ⟨_, _, rfl, rfl, rfl⟩
  · rw [pv_relearning]
    cases r
    · rw [pr_relearning_again]; exact ⟨_, _, rfl, rfl, ⟨600, rfl, rfl⟩⟩
    · rw [pr_relearning_hard]; exact ⟨_, _, rfl, rfl, ⟨_, rfl, rfl⟩⟩
    · rw [pr_relearning_good]; exact ⟨_, _, rfl, rfl, rfl⟩
    · rw [pr_relearning_easy]; exact ⟨_, _, rfl, rfl, rfl⟩

/-- Counterexample to C4 as stated: on a Review card with
`repetitions = 0`, an Easy rating yields a 4-day interval (the Easy
graduating interval), not the 1 day of the SM-2 Good tier the claim
asserts. -/
theorem claim_c4_counterexample :
    (process_review ⟨.review, 0, 2, 10, 0, none, some 0, 0⟩ .easy 0 0).map
        (fun u => u.interval_days) = some 4 ∧ (4 : ℤ) ≠ 1 := by
  constructor
  · rw [pr_review_easy]; rfl
  · decide

/-- C4 amended: for a well-formed Review card (`interval_days ≥ 0`,
`ease_factor ≥ 1.3`) rated Easy, the card stays in Review, ease rises by
0.15, repetitions advance, and the interval follows the Easy tiers:
`repetitions == 0` gives 4 days (the Easy graduating interval, not the
Good tier's 1 day), `repetitions == 1` gives 6 days, and otherwise
`floor(old_interval × ease × 1.3)`. -/
theorem claim_c4_review_easy_tiers (c : Card) (now_ms : ℕ) (today : ℤ)
    (hstate : c.card_state = .review) (hiv : 0 ≤ c.interval_days)
    (hef : MINIMUM_EASE_FACTOR ≤ c.ease_factor) :
    ∃ u, process_review c .easy now_ms today = some u ∧
      u.card_state = .review ∧
      u.ease_factor = c.ease_factor + 0.15 ∧
      u.repetitions = c.repetitions + 1 ∧
      u.interval_days =
        (if c.repetitions = 0 then 4
         else if c.repetitions = 1 then 6
         else ⌊(c.interval_days : ℚ) * c.ease_factor * EASY_BONUS⌋) := by
  rcases c with ⟨cs, ls, ef, iv, reps, due, next, cr⟩
  cases hstate
  rw [pr_review_easy]
  refine ⟨_, rfl, rfl, rfl, rfl, ?_⟩
  simp only
  have hprod : (0 : ℚ) ≤ (iv : ℚ) * ef * EASY_BONUS := by
    have h1 : (0 : ℚ) ≤ (iv : ℚ) := by exact_mod_cast hiv
    have h2 : (0 : ℚ) ≤ ef := le_trans (by norm_num [MINIMUM_EASE_FACTOR]) hef
    have h3 : (0 : ℚ) ≤ EASY_BONUS := by norm_num [EASY_BONUS]
    exact mul_nonneg (mul_nonneg h1 h2) h3
  rcases Nat.eq_zero_or_pos reps with rfl | hr
  · rfl
  · rcases eq_or_ne reps 1 with rfl | hr1
    · rfl
    · rw [if_neg (Nat.pos_iff_ne_zero.mp hr), if_neg hr1,
        if_neg (Nat.pos_iff_ne_zero.mp hr), if_neg hr1]
      simp [pyInt, hprod]

/-- Witness for the amended C4 at a concrete Review card with
`repetitions = 2`. -/
theorem claim_c4_review_easy_tiers_witness :
    (⟨.review, 0, MINIMUM_EASE_FACTOR, 10, 2, none, some 0, 0⟩ : Card).card_state =
        CardState.review ∧
      (0 : ℤ) ≤ 10 ∧
      MINIMUM_EASE_FACTOR ≤ MINIMUM_EASE_FACTOR ∧
      (∃ u, process_review
            ⟨.review, 0, MINIMUM_EASE_FACTOR, 10, 2, none, some 0, 0⟩ .easy 0 0 =
          some u ∧
        u.card_state = .review ∧
        u.ease_factor = MINIMUM_EASE_FACTOR + 0.15 ∧
        u.repetitions = 2 + 1 ∧
        u.interval_days =
          (if (2 : ℕ) = 0 then 4
           else if (2 : ℕ) = 1 then 6
           else ⌊(10 : ℚ) * MINIMUM_EASE_FACTOR * EASY_BONUS⌋)) :=
  ⟨rfl, by decide, le_refl _,
   claim_c4_review_easy_tiers
     ⟨.review, 0, MINIMUM_EASE_FACTOR, 10, 2, none, some 0, 0⟩ 0 0 rfl
     (by decide) (le_refl _)⟩

-- ============ Due-queue lemmas ============

lemma isLearn_state {c : Card} (h : isLearnOrRelearn c = true) :
    c.card_state = .learning ∨ c.card_state = .relearning := by
  cases hc : c.card_state <;> simp [isLearnOrRelearn, hc] at h ⊢

lemma tierRank_of_learn {c : Card} (h : isLearnOrRelearn c = true) :
    tierRank c = 0 := by
  rcases isLearn_state h with h' | h' <;> simp [tierRank, h']

lemma tierKey_of_learn {c : Card} (h : isLearnOrRelearn c = true) :
    tierKey c = (c.due_timestamp.getD 0 : ℤ) := by
  rcases isLearn_state h with h' | h' <;> simp [tierKey, h']

lemma reviewDue_state {c : Card} {today : ℤ} (h : reviewDue c today = true) :
    c.card_state = .review := by
  cases hc : c.card_state <;> simp [reviewDue, hc] at h ⊢

lemma tierRank_of_review {c : Card} (h : c.card_state = .review) :
    tierRank c = 1 := by
  simp [tierRank, h]

lemma tierKey_of_review {c : Card} (h : c.card_state = .review) :
    tierKey c = c.next_review_date.getD 0 := by
  simp [tierKey, h]

lemma newState_of_beq {c : Card} (h : (c.card_state == .new) = true) :
    c.card_state = .new := by
  cases hc : c.card_state <;> simp [hc] at h ⊢

lemma tierRank_of_new {c : Card} (h : c.card_state = .new) :
    tierRank c = 2 := by
  simp [tierRank, h]

lemma tierKey_of_new {c : Card} (h : c.card_state = .new) :
    tierKey c = (c.created_at : ℤ) := by
  simp [tierKey, h]

lemma applyNewLimit_sublist (new_limit : Option ℤ) (l : List Card) :
    List.Sublist (applyNewLimit new_limit l) l := by
  cases new_limit with
  | none => exact List.Sublist.refl l
  | some n =>
    show List.Sublist
      (if n = 0 then l else if 0 ≤ n then l.take n.toNat else l) l
    split_ifs
    · exact List.Sublist.refl l
    · exact List.take_sublist _ l
    · exact List.Sublist.refl l

lemma learningPart_props (cards : List Card) (inP : Bool) (now_ms : ℕ) :
    ∀ c ∈ learningPart cards inP now_ms,
      c ∈ cards ∧ isLearnOrRelearn c = true := by
  unfold learningPart
  split_ifs <;> intro c hc <;>
  · have h := List.mem_filter.mp ((List.mem_insertionSort byDue).mp hc)
    have h2 := h.2
    rw [Bool.and_eq_true] at h2
    exact ⟨h.1, h2.1⟩

lemma learningPart_sorted (cards : List Card) (inP : Bool) (now_ms : ℕ) :
    List.Sorted byDue (learningPart cards inP now_ms) := by
  unfold learningPart
  split_ifs <;> exact List.sorted_insertionSort byDue _

lemma reviewPart_props (cards : List Card) (today : ℤ) :
    ∀ c ∈ reviewPart cards today, c ∈ cards ∧ reviewDue c today = true := by
  intro c hc
  have h := List.mem_filter.mp ((List.mem_insertionSort byNext).mp hc)
  exact ⟨h.1, h.2⟩

lemma reviewPart_sorted (cards : List Card) (today : ℤ) :
    List.Sorted byNext (reviewPart cards today) :=
  List.sorted_insertionSort byNext _

lemma newPart_props (cards : List Card) (inN : Bool) (lim : Option ℤ) :
    ∀ c ∈ newPart cards inN lim, c ∈ cards ∧ c.card_state = .new := by
  unfold newPart
  split_ifs <;> intro c hc
  · have h1 := (applyNewLimit_sublist lim _).subset hc
    have h := List.mem_filter.mp ((List.mem_insertionSort byCreated).mp h1)
    exact ⟨h.1, newState_of_beq h.2⟩
  · cases hc

lemma newPart_sorted (cards : List Card) (inN : Bool) (lim : Option ℤ) :
    List.Sorted byCreated (newPart cards inN lim) := by
  unfold newPart
  split_ifs
  · exact List.Pairwise.sublist (applyNewLimit_sublist lim _)
      (List.sorted_insertionSort byCreated _)
  · exact List.sorted_nil

/-- Three tiers of the documented kinds, each sorted by its key,
concatenate to a `queueLe`-ordered list. -/
lemma queue_tiers_pairwise (lp rp np : List Card)
    (hl : ∀ c ∈ lp, isLearnOrRelearn c = true)
    (hls : List.Sorted byDue lp)
    (hr : ∀ c ∈ rp, c.card_state = .review)
    (hrs : List.Sorted byNext rp)
    (hn : ∀ c ∈ np, c.card_state = .new)
    (hns : List.Sorted byCreated np) :
    List.Pairwise queueLe (lp ++ rp ++ np) := by
  rw [List.pairwise_append, List.pairwise_append]
  refine ⟨⟨?_, ?_, ?_⟩, ?_, ?_⟩
  · exact hls.imp_of_mem fun {a b} ha hb hab =>
      Or.inr ⟨by rw [tierRank_of_learn (hl a ha), tierRank_of_learn (hl b hb)],
        by rw [tierKey_of_learn (hl a ha), tierKey_of_learn (hl b hb)]
           exact_mod_cast hab⟩
  · exact hrs.imp_of_mem fun {a b} ha hb hab =>
      Or.inr ⟨by rw [tierRank_of_review (hr a ha), tierRank_of_review (hr b hb)],
        by rw [tierKey_of_review (hr a ha), tierKey_of_review (hr b hb)]
           exact hab⟩
  · intro a ha b hb
    exact Or.inl (by
      rw [tierRank_of_learn (hl a ha), tierRank_of_review (hr b hb)]
      exact Nat.zero_lt_one)
  · exact hns.imp_of_mem fun {a b} ha hb hab =>
      Or.inr ⟨by rw [tierRank_of_new (hn a ha), tierRank_of_new (hn b hb)],
        by rw [tierKey_of_new (hn a ha), tierKey_of_new (hn b hb)]
           exact_mod_cast hab⟩
  · intro a ha b hb
    rcases List.mem_append.mp ha with ha' | ha'
    · exact Or.inl (by
        rw [tierRank_of_learn (hl a ha'), tierRank_of_new (hn b hb)]
        exact Nat.zero_lt_two)
    · exact Or.inl (by
        rw [tierRank_of_review (hr a ha'), tierRank_of_new (hn b hb)]
        exact Nat.one_lt_two)

/-- With `sort=due_first` the queue is exactly the three tiers in
order. -/
lemma get_due_cards_due_first (cards : List Card)
    (inN inP : Bool) (lim : Option ℤ) (shuffle : List Card → List Card)
    (now_ms : ℕ) (today : ℤ) :
    get_due_cards cards inN inP .due_first lim shuffle now_ms today =
      learningPart cards inP now_ms ++ reviewPart cards today ++
        newPart cards inN lim := by
  unfold get_due_cards learningPart reviewPart newPart
  cases inN <;> simp

/-- With `sort=random` the queue is the shuffle of the due_first
queue. -/
lemma get_due_cards_random (cards : List Card)
    (inN inP : Bool) (lim : Option ℤ) (shuffle : List Card → List Card)
    (now_ms : ℕ) (today : ℤ) :
    get_due_cards cards inN inP .random lim shuffle now_ms today =
      shuffle
        (get_due_cards cards inN inP .due_first lim shuffle now_ms today) :=
  rfl

/-- With `sort=newest` the queue is the whole due_first queue re-sorted
by creation time, descending. -/
lemma get_due_cards_newest (cards : List Card)
    (inN inP : Bool) (lim : Option ℤ) (shuffle : List Card → List Card)
    (now_ms : ℕ) (today : ℤ) :
    get_due_cards cards inN inP .newest lim shuffle now_ms today =
      List.insertionSort byCreatedDesc
        (get_due_cards cards inN inP .due_first lim shuffle now_ms today) :=
  rfl

/-- With `sort=oldest` the queue is the whole due_first queue re-sorted
by creation time, ascending. -/
lemma get_due_cards_oldest (cards : List Card)
    (inN inP : Bool) (lim : Option ℤ) (shuffle : List Card → List Card)
    (now_ms : ℕ) (today : ℤ) :
    get_due_cards cards inN inP .oldest lim shuffle now_ms today =
      List.insertionSort byCreated
        (get_due_cards cards inN inP .due_first lim shuffle now_ms today) :=
  rfl

/-- C5: with `sort=due_first` the assembled queue lists due
learning/relearning cards strictly before due review cards strictly
before included new cards, each tier ascending in its documented key
(`queueLe`); it contains every due learning/relearning card (all of
them under `include_pending`, using the data-model invariant that
learning/relearning cards carry a `due_timestamp`), every due review
card, and only cards from the input snapshot; with `sort=newest` or
`sort=oldest` the entire combined list is re-ordered by creation time
instead, and with `sort=random` the whole combined list is handed to
the shuffle, discarding the three-tier priority. -/
theorem claim_c5_queue_ordering (cards : List Card)
    (include_new include_pending : Bool) (new_limit : Option ℤ)
    (shuffle : List Card → List Card) (now_ms : ℕ) (today : ℤ)
    (hwf : ∀ c ∈ cards, isLearnOrRelearn c = true →
      c.due_timestamp.isSome = true) :
    List.Pairwise queueLe
        (get_due_cards cards include_new include_pending .due_first
          new_limit shuffle now_ms today) ∧
      (include_pending = true → ∀ c ∈ cards, isLearnOrRelearn c = true →
        c ∈ get_due_cards cards include_new include_pending .due_first
            new_limit shuffle now_ms today) ∧
      (include_pending = false → ∀ c ∈ cards, isLearnOrRelearn c = true →
        dueAtMost c now_ms = true →
        c ∈ get_due_cards cards include_new include_pending .due_first
            new_limit shuffle now_ms today) ∧
      (∀ c ∈ cards, reviewDue c today = true →
        c ∈ get_due_cards cards include_new include_pending .due_first
            new_limit shuffle now_ms today) ∧
      (∀ c ∈ get_due_cards cards include_new include_pending .due_first
          new_limit shuffle now_ms today, c ∈ cards) ∧
      (List.Perm
          (get_due_cards cards include_new include_pending .newest
            new_limit shuffle now_ms today)
          (get_due_cards cards include_new include_pending .due_first
            new_limit shuffle now_ms today) ∧
        List.Sorted byCreatedDesc
          (get_due_cards cards include_new include_pending .newest
            new_limit shuffle now_ms today)) ∧
      (List.Perm
          (get_due_cards cards include_new include_pending .oldest
            new_limit shuffle now_ms today)
          (get_due_cards cards include_new include_pending .due_first
            new_limit shuffle now_ms today) ∧
        List.Sorted byCreated
          (get_due_cards cards include_new include_pending .oldest
            new_limit shuffle now_ms today)) ∧
      get_due_cards cards include_new include_pending .random
          new_limit shuffle now_ms today =
        shuffle
          (get_due_cards cards include_new include_pending .due_first
            new_limit shuffle now_ms today) := by
  refine ⟨?_, ?_, ?_, ?_, ?_, ?_, ?_, ?_⟩
  · rw [get_due_cards_due_first]
    exact queue_tiers_pairwise _ _ _
      (fun c hc => (learningPart_props cards include_pending now_ms c hc).2)
      (learningPart_sorted cards include_pending now_ms)
      (fun c hc => reviewDue_state (reviewPart_props cards today c hc).2)
      (reviewPart_sorted cards today)
      (fun c hc => (newPart_props cards include_new new_limit c hc).2)
      (newPart_sorted cards include_new new_limit)
  · intro hp c hc hl
    rw [get_due_cards_due_first]
    refine List.mem_append.mpr (Or.inl (List.mem_append.mpr (Or.inl ?_)))
    simp [learningPart, hp, List.mem_insertionSort, List.mem_filter, hc, hl,
      hwf c hc hl]
  · intro hp c hc hl hd
    rw [get_due_cards_due_first]
    refine List.mem_append.mpr (Or.inl (List.mem_append.mpr (Or.inl ?_)))
    simp [learningPart, hp, List.mem_insertionSort, List.mem_filter, hc, hl,
      hd]
  · intro c hc hr
    rw [get_due_cards_due_first]
    refine List.mem_append.mpr (Or.inl (List.mem_append.mpr (Or.inr ?_)))
    simp [reviewPart, List.mem_insertionSort, List.mem_filter, hc, hr]
  · intro c hc
    rw [get_due_cards_due_first] at hc
    rcases List.mem_append.mp hc with hc' | hc'
    · rcases List.mem_append.mp hc' with hc'' | hc''
      · exact (learningPart_props cards include_pending now_ms c hc'').1
      · exact (reviewPart_props cards today c hc'').1
    · exact (newPart_props cards include_new new_limit c hc').1
  · rw [get_due_cards_newest]
    exact ⟨List.perm_insertionSort byCreatedDesc _,
      List.sorted_insertionSort byCreatedDesc _⟩
  · rw [get_due_cards_oldest]
    exact ⟨List.perm_insertionSort byCreated _,
      List.sorted_insertionSort byCreated _⟩
  · exact get_due_cards_random cards include_new include_pending new_limit
      shuffle now_ms today

/-- Witness for C5 on a one-card snapshot containing a due learning
card. -/
theorem claim_c5_queue_ordering_witness :
    (∀ c ∈ ([⟨.learning, 0, 2, 0, 0, some 5, none, 7⟩] : List Card),
        isLearnOrRelearn c = true → c.due_timestamp.isSome = true) ∧
      (List.Pairwise queueLe
          (get_due_cards [⟨.learning, 0, 2, 0, 0, some 5, none, 7⟩] true false
            .due_first none id 10 0) ∧
        (false = true →
          ∀ c ∈ ([⟨.learning, 0, 2, 0, 0, some 5, none, 7⟩] : List Card),
            isLearnOrRelearn c = true →
            c ∈ get_due_cards [⟨.learning, 0, 2, 0, 0, some 5, none, 7⟩] true
                false .due_first none id 10 0) ∧
        (false = false →
          ∀ c ∈ ([⟨.learning, 0, 2, 0, 0, some 5, none, 7⟩] : List Card),
            isLearnOrRelearn c = true → dueAtMost c 10 = true →
            c ∈ get_due_cards [⟨.learning, 0, 2, 0, 0, some 5, none, 7⟩] true
                false .due_first none id 10 0) ∧
        (∀ c ∈ ([⟨.learning, 0, 2, 0, 0, some 5, none, 7⟩] : List Card),
          reviewDue c 0 = true →
          c ∈ get_due_cards [⟨.learning, 0, 2, 0, 0, some 5, none, 7⟩] true
              false .due_first none id 10 0) ∧
        (∀ c ∈ get_due_cards [⟨.learning, 0, 2, 0, 0, some 5, none, 7⟩] true
            false .due_first none id 10 0,
          c ∈ ([⟨.learning, 0, 2, 0, 0, some 5, none, 7⟩] : List Card)) ∧
        (List.Perm
            (get_due_cards [⟨.learning, 0, 2, 0, 0, some 5, none, 7⟩] true
              false .newest none id 10 0)
            (get_due_cards [⟨.learning, 0, 2, 0, 0, some 5, none, 7⟩] true
              false .due_first none id 10 0) ∧
          List.Sorted byCreatedDesc
            (get_due_cards [⟨.learning, 0, 2, 0, 0, some 5, none, 7⟩] true
              false .newest none id 10 0)) ∧
        (List.Perm
            (get_due_cards [⟨.learning, 0, 2, 0, 0, some 5, none, 7⟩] true
              false .oldest none id 10 0)
            (get_due_cards [⟨.learning, 0, 2, 0, 0, some 5, none, 7⟩] true
              false .due_first none id 10 0) ∧
          List.Sorted byCreated
            (get_due_cards [⟨.learning, 0, 2, 0, 0, some 5, none, 7⟩] true
              false .oldest none id 10 0)) ∧
        get_due_cards [⟨.learning, 0, 2, 0, 0, some 5, none, 7⟩] true false
            .random none id 10 0 =
          id (get_due_cards [⟨.learning, 0, 2, 0, 0, some 5, none, 7⟩] true
              false .due_first none id 10 0)) :=
  ⟨by decide,
   claim_c5_queue_ordering [⟨.learning, 0, 2, 0, 0, some 5, none, 7⟩] true
     false none id 10 0 (by decide)⟩

/-- Counterexample to C6 as stated: with `new_limit = 0` the queue is
required by the claim to contain at most 0 new cards, but Python's
`if new_limit` treats 0 as absent, so the lone new card is still
included. -/
theorem claim_c6_counterexample :
    ¬ List.countP (fun c => c.card_state == CardState.new)
        (get_due_cards [⟨.new, 0, 2, 0, 0, none, none, 0⟩] true false
          .due_first (some 0) id 0 0) ≤ 0 := by decide

/-- C6 amended: for every present and positive `new_limit = n`, the
due_first queue contains exactly the first `n` new cards in ascending
creation-time order (hence at most `n` new cards); `n = 0` does not cap
(it is treated like an absent limit). -/
theorem claim_c6_new_limit_cap (cards : List Card) (include_pending : Bool)
    (shuffle : List Card → List Card) (now_ms : ℕ) (today : ℤ) (n : ℤ)
    (hn : 0 < n) :
    (get_due_cards cards true include_pending .due_first (some n) shuffle
          now_ms today).filter (fun c => c.card_state == .new) =
        (List.insertionSort byCreated
            (cards.filter fun c => c.card_state == .new)).take n.toNat ∧
      List.countP (fun c => c.card_state == .new)
          (get_due_cards cards true include_pending .due_first (some n)
            shuffle now_ms today) ≤ n.toNat := by
  have h0 : n ≠ 0 := by omega
  have hnp : newPart cards true (some n) =
      (List.insertionSort byCreated
        (cards.filter fun c => c.card_state == .new)).take n.toNat := by
    simp only [newPart, applyNewLimit, if_true]
    rw [if_neg h0, if_pos (le_of_lt hn)]
  have hfl : (learningPart cards include_pending now_ms).filter
      (fun c => c.card_state == .new) = [] := by
    rw [List.filter_eq_nil_iff]
    intro c hc hb
    rcases isLearn_state (learningPart_props _ _ _ c hc).2 with h' | h' <;>
      rw [h'] at hb <;> exact absurd hb (by decide)
  have hfr : (reviewPart cards today).filter
      (fun c => c.card_state == .new) = [] := by
    rw [List.filter_eq_nil_iff]
    intro c hc hb
    rw [reviewDue_state (reviewPart_props _ _ c hc).2] at hb
    exact absurd hb (by decide)
  have hft : ((List.insertionSort byCreated
        (cards.filter fun c => c.card_state == .new)).take n.toNat).filter
      (fun c => c.card_state == .new) =
      (List.insertionSort byCreated
        (cards.filter fun c => c.card_state == .new)).take n.toNat := by
    rw [List.filter_eq_self]
    intro c hc
    have h1 := (List.mem_insertionSort byCreated).mp
      (List.mem_of_mem_take hc)
    exact (List.mem_filter.mp h1).2
  have hmain : (get_due_cards cards true include_pending .due_first (some n)
      shuffle now_ms today).filter (fun c => c.card_state == .new) =
      (List.insertionSort byCreated
        (cards.filter fun c => c.card_state == .new)).take n.toNat := by
    rw [get_due_cards_due_first, List.filter_append, List.filter_append,
      hfl, hfr, hnp, hft]
    simp
  refine ⟨hmain, ?_⟩
  rw [List.countP_eq_length_filter, hmain, List.length_take]
  exact min_le_left _ _

/-- Witness for the amended C6 with `new_limit = 1` over a one-card
snapshot. -/
theorem claim_c6_new_limit_cap_witness :
    (0 : ℤ) < 1 ∧
      ((get_due_cards [⟨.new, 0, 2, 0, 0, none, none, 0⟩] true false
            .due_first (some 1) id 0 0).filter
          (fun c => c.card_state == .new) =
        (List.insertionSort byCreated
            (([⟨.new, 0, 2, 0, 0, none, none, 0⟩] : List Card).filter
              fun c => c.card_state == .new)).take (1 : ℤ).toNat ∧
      List.countP (fun c => c.card_state == .new)
          (get_due_cards [⟨.new, 0, 2, 0, 0, none, none, 0⟩] true false
            .due_first (some 1) id 0 0) ≤ (1 : ℤ).toNat) :=
  ⟨by decide,
   claim_c6_new_limit_cap [⟨.new, 0, 2, 0, 0, none, none, 0⟩] false id 0 0 1
     (by decide)⟩

-- ============ Forecast lemmas ============

lemma windowCount_succ (cards : List Card) (today : ℤ) (k : ℕ) :
    windowCount cards today (k + 1) =
      windowCount cards today k + reviewCountOn cards (today + (k : ℤ)) := by
  induction cards with
  | nil => rfl
  | cons c cs ih =>
    unfold windowCount reviewCountOn at ih ⊢
    rw [List.countP_cons, List.countP_cons, List.countP_cons, ih]
    cases hs : c.card_state <;> cases hd : c.next_review_date <;>
      simp only [hs, hd, Bool.and_eq_true, decide_eq_true_eq] <;>
      push_cast <;>
      split_ifs <;>
      simp_all <;>
      omega

lemma windowCount_zero (cards : List Card) (today : ℤ) :
    windowCount cards today 0 = 0 := by
  unfold windowCount
  rw [List.countP_eq_zero]
  intro c hc
  cases hs : c.card_state <;> cases hd : c.next_review_date <;>
    simp [hs, hd]

lemma forecast_sum (cards : List Card) (today : ℤ) (m : ℕ) :
    ((List.range m).map fun (i : ℕ) =>
        reviewCountOn cards (today + (i : ℤ)) +
          (if i = 0 then newCardCount cards else 0)).sum =
      windowCount cards today m +
        (if 0 < m then newCardCount cards else 0) := by
  induction m with
  | zero =>
    rw [windowCount_zero]
    simp
  | succ k ih =>
    rw [List.range_succ, List.map_append, List.sum_append, ih,
      windowCount_succ]
    simp only [List.map_cons, List.map_nil, List.sum_cons, List.sum_nil]
    rcases Nat.eq_zero_or_pos k with rfl | hk
    · rw [windowCount_zero]
      simp
    · have h1 : ¬ k = 0 := by omega
      have h2 : 0 < k + 1 := by omega
      simp only [h1, hk, h2, if_true, if_false, ite_true, ite_false,
        if_neg, Nat.lt_irrefl]
      omega

/-- C7: the forecast covers `min(days, 365)` days; day `i` reports
exactly the count of Review cards due that calendar day plus, on day 0
only, the New-card count; and the returned total equals the sum of the
daily counts, which is the number of Review cards whose
`next_review_date` falls in the window plus the New-card count when the
window is nonempty. -/
theorem claim_c7_forecast_conservation (cards : List Card) (days : ℤ)
    (today : ℤ) :
    (get_forecast cards days today).1.length = (min days 365).toNat ∧
      (get_forecast cards days today).2.2 = min days 365 ∧
      (∀ i (h : i < (get_forecast cards days today).1.length),
        (get_forecast cards days today).1.get ⟨i, h⟩ =
          { fdate := today + (i : ℤ), dayOffset := i,
            dueCount := reviewCountOn cards (today + (i : ℤ)) +
              (if i = 0 then newCardCount cards else 0),
            newCount := (if i = 0 then newCardCount cards else 0),
            reviewCount := reviewCountOn cards (today + (i : ℤ)) }) ∧
      (get_forecast cards days today).2.1 =
        ((get_forecast cards days today).1.map (·.dueCount)).sum ∧
      (get_forecast cards days today).2.1 =
        windowCount cards today (min days 365).toNat +
          (if 0 < min days 365 then newCardCount cards else 0) := by
  refine ⟨?_, rfl, ?_, rfl, ?_⟩
  · simp [get_forecast]
  · intro i h
    simp only [get_forecast, List.get_map, List.get_range]
  · show (((List.range (min days 365).toNat).map fun (i : ℕ) =>
        ({ fdate := today + (i : ℤ), dayOffset := i,
           dueCount := reviewCountOn cards (today + (i : ℤ)) +
             (if i = 0 then newCardCount cards else 0),
           newCount := (if i = 0 then newCardCount cards else 0),
           reviewCount :=
             reviewCountOn cards (today + (i : ℤ)) } : DayForecast)).map
        (·.dueCount)).sum = _
    rw [List.map_map]
    have hmap : ((fun x : DayForecast => x.dueCount) ∘ fun (i : ℕ) =>
        ({ fdate := today + (i : ℤ), dayOffset := i,
           dueCount := reviewCountOn cards (today + (i : ℤ)) +
             (if i = 0 then newCardCount cards else 0),
           newCount := (if i = 0 then newCardCount cards else 0),
           reviewCount :=
             reviewCountOn cards (today + (i : ℤ)) } : DayForecast)) =
        fun (i : ℕ) => reviewCountOn cards (today + (i : ℤ)) +
          (if i = 0 then newCardCount cards else 0) := rfl
    rw [hmap, forecast_sum]
    have hiff : 0 < (min days 365).toNat ↔ 0 < min days 365 := by omega
    rcases Classical.em (0 < min days 365) with hp | hp
    · rw [if_pos hp, if_pos (hiff.mpr hp)]
    · rw [if_neg hp, if_neg (fun hc => hp (hiff.mp hc))]

-- ============ Streak lemmas ============

lemma streakGo_spec (log : List LogEntry) (m : String) (td : ℤ) :
    ∀ (fuel streak : ℕ), streak + fuel = 367 → streak ≤ 365 →
      (∀ k, k < streak → 0 < dayCount log m (td - (k : ℤ) * 86400000)) →
      streak ≤ streakGo log m (td - (streak : ℤ) * 86400000) streak fuel ∧
        streakGo log m (td - (streak : ℤ) * 86400000) streak fuel ≤ 366 ∧
        (∀ k, k < streakGo log m (td - (streak : ℤ) * 86400000) streak fuel →
          0 < dayCount log m (td - (k : ℤ) * 86400000)) ∧
        (streakGo log m (td - (streak : ℤ) * 86400000) streak fuel < 366 →
          dayCount log m
            (td - ((streakGo log m (td - (streak : ℤ) * 86400000) streak
              fuel : ℕ) : ℤ) * 86400000) = 0) := by
  intro fuel
  induction fuel with
  | zero =>
    intro streak hsum
    omega
  | succ f ih =>
    intro streak hsum hle hprev
    rw [streakGo]
    split_ifs with hday hcap
    · have hs365 : streak = 365 := by omega
      subst hs365
      refine ⟨by omega, by omega, ?_, by omega⟩
      intro k hk
      rcases Nat.lt_or_ge k 365 with hk' | hk'
      · exact hprev k hk'
      · have : k = 365 := by omega
        subst this
        exact hday
    · have harg : td - (streak : ℤ) * 86400000 - 86400000 =
          td - ((streak + 1 : ℕ) : ℤ) * 86400000 := by
        push_cast
        ring
      rw [harg]
      have hnext : ∀ k, k < streak + 1 →
          0 < dayCount log m (td - (k : ℤ) * 86400000) := by
        intro k hk
        rcases Nat.lt_or_ge k streak with hk' | hk'
        · exact hprev k hk'
        · have : k = streak := by omega
          subst this
          exact hday
      have := ih (streak + 1) (by omega) (by omega) hnext
      exact ⟨by omega, this.2.1, this.2.2.1, this.2.2.2⟩
    · refine ⟨le_refl _, by omega, hprev, fun _ => ?_⟩
      omega

set_option maxRecDepth 10000 in
/-- Each of the 366 days walked by the counterexample log below has one
entry. -/
lemma fullLog_day_pos (j : ℕ) (hj : j < 366) :
    0 < dayCount
        ((List.range 366).map fun k => ⟨"L", (k : ℤ) * 86400000 + 1⟩) "L"
        ((365 : ℤ) * 86400000 - (j : ℤ) * 86400000) := by
  unfold dayCount
  rw [List.countP_pos]
  have hmem := List.mem_map_of_mem
    (fun k : ℕ => (⟨"L", (k : ℤ) * 86400000 + 1⟩ : LogEntry))
    (List.mem_range.mpr (show 365 - j < 366 by omega))
  refine ⟨_, hmem, ?_⟩
  have hcast : ((365 - j : ℕ) : ℤ) = 365 - (j : ℤ) := by omega
  simp only [beq_self_eq_true, Bool.true_and, Bool.and_eq_true,
    decide_eq_true_eq, hcast]
  omega

/-- Counterexample to C8 as stated: with one log entry on each of 366
consecutive days the loop increments the streak to 366 before its
safety check fires, so the returned streak exceeds 365. -/
theorem claim_c8_counterexample :
    365 < study_streak
        ((List.range 366).map fun k =>
          ⟨"L", (k : ℤ) * 86400000 + 1⟩) "L" (365 * 86400000) := by
  have htd : (((365 * 86400000 : ℕ) : ℤ) / 86400000) * 86400000 =
      (365 : ℤ) * 86400000 := by decide
  have h := streakGo_spec
    ((List.range 366).map fun k => ⟨"L", (k : ℤ) * 86400000 + 1⟩) "L"
    ((365 : ℤ) * 86400000) 367 0 (by omega) (by omega)
    (fun k hk => absurd hk (Nat.not_lt_zero k))
  have harg : (365 : ℤ) * 86400000 - ((0 : ℕ) : ℤ) * 86400000 =
      (365 : ℤ) * 86400000 := by simp
  rw [harg] at h
  simp only [study_streak, htd]
  by_contra hle
  push_neg at hle
  have hlt : streakGo
      ((List.range 366).map fun k => ⟨"L", (k : ℤ) * 86400000 + 1⟩) "L"
      ((365 : ℤ) * 86400000) 0 367 < 366 := by omega
  have hzero := h.2.2.2 hlt
  have hpos := fullLog_day_pos _ hlt
  omega

/-- C8 amended: the returned day-streak counts consecutive days with at
least one log entry for the module, walking backward from the start of
today, except that the walk stops only after the streak has been
incremented past 365 — so the streak is capped at 366 (not 365): every
day strictly below the returned streak is non-empty, and whenever the
returned streak is below 366 the next day back is empty. -/
theorem claim_c8_streak_cap (log : List LogEntry) (m : String)
    (now_ms : ℕ) :
    study_streak log m now_ms ≤ 366 ∧
      (∀ k, k < study_streak log m now_ms →
        0 < dayCount log m
          (((now_ms : ℤ) / 86400000) * 86400000 - (k : ℤ) * 86400000)) ∧
      (study_streak log m now_ms < 366 →
        dayCount log m
          (((now_ms : ℤ) / 86400000) * 86400000 -
            ((study_streak log m now_ms : ℕ) : ℤ) * 86400000) = 0) := by
  have h := streakGo_spec log m (((now_ms : ℤ) / 86400000) * 86400000) 367 0
    (by omega) (by omega) (fun k hk => absurd hk (Nat.not_lt_zero k))
  have harg : ((now_ms : ℤ) / 86400000) * 86400000 - ((0 : ℕ) : ℤ) * 86400000 =
      ((now_ms : ℤ) / 86400000) * 86400000 := by
    push_cast
    ring
  rw [harg] at h
  exact ⟨h.2.1, h.2.2.1, h.2.2.2⟩
